import Mathlib

/-!
Verification of the gradient-aggregation and variable-replication logic of
`scripts/tf_cnn_benchmarks/variable_mgr.py` (Intel-tensorflow/benchmarks).

Tensors are shallowly embedded as a shape together with a flat list of
integer payload values; the TensorFlow graph operations used by the module
(`tf.reshape`, `tf.concat`, `tf.split`, `tf.size`, `tf.shape`, addition)
become the corresponding pure list operations.  Variables are identified by
their handle (a natural number) or, where the code manipulates variable
names, by their name string.  Python exceptions (`ValueError`,
`AssertionError`, `IndexError`, `KeyError`) become `Option`/`Except`
results.

Functions of the helper modules `allreduce`, `variable_mgr_util` and
`benchmark_cnn` are not part of the verified source tree; where a claim
depends on one, it is modelled from the specification and marked
`Modelled from the spec:` in its doc comment.
-/

/-- A tensor: a shape (`tf.shape`) and its flat payload in row-major order.
`tf.size` is the payload length, `tf.reshape(g, [-1])` keeps the payload and
flattens the shape. -/
structure Tensor where
  shape : List Nat
  data : List Int
deriving DecidableEq, Repr, Inhabited

/-- Elementwise tensor addition (`tf.add` on same-shaped tensors). -/
def addT (a b : Tensor) : Tensor :=
  ⟨a.shape, a.data.zipWith (· + ·) b.data⟩

/-- `tf.add_n`: sum of a nonempty list of tensors (empty list gives the
empty tensor, a case the source never produces). -/
def sumTensors : List Tensor → Tensor
  | [] => ⟨[], []⟩
  | t :: ts => ts.foldl addT t

/-- The gradients found at parameter position `j` across all device rows of
a device-gradient matrix (`zip(*tower_grads)` column extraction). -/
def colGrads {β : Type} (device_grads : List (List (Tensor × β))) (j : Nat) :
    List Tensor :=
  device_grads.filterMap (fun row => (row.get? j).map Prod.fst)

/-- Modelled from the spec:
`variable_mgr_util.aggregate_gradients_using_copy_with_device_selection`
is not in the source tree.  Per the spec's aggregation-primitive contract it
produces one aggregated sequence of (gradient, parameter) pairs aligned
positionally with the input's per-replica sequences, where each position's
gradient is the sum (`use_mean=False`) over all replicas of that position's
gradients; the pair keeps the first replica's parameter handle.  The target
device chosen by the placement heuristic does not affect the value. -/
def aggregate_gradients_using_copy_with_device_selection {β : Type}
    [Inhabited β] (device_grads : List (List (Tensor × β))) :
    List (Tensor × β) :=
  match device_grads with
  | [] => []
  | row0 :: _ =>
      (List.range row0.length).map
        (fun j => (sumTensors (colGrads device_grads j),
                   (row0.getD j default).2))

/-- `VariableMgrLocalReplicated.preprocess_device_grads`, branch with no
all-reduce spec and `hierarchical_copy` disabled (variable_mgr.py lines
294-305): aggregate with `use_mean=False`, then for every device row pair
the aggregated gradients with that row's own variables
(`[(g, v) for (_, v), (g, _) in zip(arr, agg_grads)]`). -/
def localReplicated_aggregated_device_grads
    (device_grads : List (List (Tensor × Nat))) :
    List (List (Tensor × Nat)) :=
  let agg_grads := aggregate_gradients_using_copy_with_device_selection
      device_grads
  device_grads.map
    (fun arr => (arr.zip agg_grads).map (fun p => (p.2.1, p.1.2)))

/-- `VariableMgrLocalReplicated.get_gradients_to_apply` (lines 393-395):
plain list indexing `device_grads[device_num]`; a Python `IndexError` on an
out-of-range natural index becomes `none`. -/
def localReplicated_get_gradients_to_apply (device_num : Nat)
    (gradient_state : List (List (Tensor × Nat))) :
    Option (List (Tensor × Nat)) :=
  gradient_state.get? device_num

/-- `s.startswith(p)` (kernel-computable form of `String.startsWith`). -/
def strStartsWith (s p : String) : Bool := p.toList.isPrefixOf s.toList

/-- `s.endswith(p)` (kernel-computable form of `String.endsWith`). -/
def strEndsWith (s p : String) : Bool := p.toList.isSuffixOf s.toList

/-- `s[:-n]` for a trailing suffix of length `n`. -/
def strDropRight (s : String) (n : Nat) : String :=
  String.mk (s.toList.take (s.toList.length - n))

/-- Python `str.split('/')` on the character list. -/
def splitSlashChars : List Char → List (List Char)
  | [] => [[]]
  | c :: cs =>
      let r := splitSlashChars cs
      if c = '/' then [] :: r
      else
        match r with
        | [] => [[c]]
        | h :: t => (c :: h) :: t

/-- Python `v.split('/')` (kernel-computable form of `String.splitOn`). -/
def splitSlash (s : String) : List String :=
  (splitSlashChars s.toList).map (fun cs => String.mk cs)

/-- The configuration/collaborator fields of `BenchmarkCNN` that
`variable_mgr.py` reads: the (possibly placement-wrapped) device list driving
graph replication, the raw device list, and the parameter-server device. -/
structure BenchmarkCNN where
  devices : List String
  raw_devices : List String
  param_server_device : String
deriving Repr, DecidableEq

/-- One parsed all-reduce range: algorithm name, shard count, byte limit
(`limit = -1` means the open-ended "rest" range). -/
structure AllReduceSpecTuple where
  alg : String
  shards : Nat
  limit : Int
deriving DecidableEq, Repr, Inhabited

/-- `VariableMgrIndependent.preprocess_device_grads` (lines 156-157):
`(self.benchmark_cnn.devices, device_grads)`. -/
def independent_preprocess_device_grads (cnn : BenchmarkCNN)
    (device_grads : List (List (Tensor × Nat))) :
    List String × List (List (Tensor × Nat)) :=
  (cnn.devices, device_grads)

/-- `VariableMgrLocalFetchFromPS.preprocess_device_grads` (lines 192-193):
`([self.benchmark_cnn.param_server_device], device_grads)`. -/
def localFetchFromPS_preprocess_device_grads (cnn : BenchmarkCNN)
    (device_grads : List (List (Tensor × Nat))) :
    List String × List (List (Tensor × Nat)) :=
  ([cnn.param_server_device], device_grads)

/-- `VariableMgrDistributedFetchFromPS.preprocess_device_grads`
(lines 554-556): `([self.benchmark_cnn.param_server_device],
device_grads)`. -/
def distributedFetchFromPS_preprocess_device_grads (cnn : BenchmarkCNN)
    (device_grads : List (List (Tensor × Nat))) :
    List String × List (List (Tensor × Nat)) :=
  ([cnn.param_server_device], device_grads)

/-- `VariableMgrDistributedReplicated.preprocess_device_grads`
(lines 624-625): `([self.benchmark_cnn.param_server_device],
device_grads)`.  Variables are handled by name in this mode. -/
def distributedReplicated_preprocess_device_grads (cnn : BenchmarkCNN)
    (device_grads : List (List (Tensor × String))) :
    List String × List (List (Tensor × String)) :=
  ([cnn.param_server_device], device_grads)

/-- `VariableMgrLocalReplicated.preprocess_device_grads`, whole function for
the branch modelled here (no all-reduce spec, hierarchical copy disabled):
line 391 returns `(self.benchmark_cnn.devices, aggregated_device_grads)`. -/
def localReplicated_preprocess_device_grads (cnn : BenchmarkCNN)
    (device_grads : List (List (Tensor × Nat))) :
    List String × List (List (Tensor × Nat)) :=
  (cnn.devices, localReplicated_aggregated_device_grads device_grads)

/-- The byte size of one gradient tensor, measured in payload elements (the
unit only rescales the byte limit of a range). -/
def tensorSize (t : Tensor) : Nat := t.data.length

/-- Modelled from the spec: the batching pass of `allreduce.
split_grads_by_size` (the `allreduce` module is not in the source tree).
Per the spec it partitions gradients in positional order by a cumulative
threshold pass: the batch is closed once the running byte total would
exceed the limit; a single gradient whose own size exceeds the limit forms
an unavoidable singleton batch (so the first gradient is always taken).
This returns the length of the first batch. -/
def split_count (limit : Int) : Int → List Nat → Nat
  | _, [] => 0
  | acc, n :: ns =>
      if acc + n ≤ limit || acc == 0 then 1 + split_count limit (acc + n) ns
      else 0

/-- Modelled from the spec: `allreduce.split_grads_by_size(threshold, grads)`
used at variable_mgr.py line 472, returning `(this_grads,
remaining_grads)`.  The device rows are positionally aligned, so the batch
boundary (a column count) is determined by row 0's gradient sizes; each
device row is split at that boundary.  As in the source, a remainder with
no gradients left is the empty list (empty rows are dropped). -/
def split_grads_by_size (limit : Int)
    (device_grads : List (List (Tensor × Nat))) :
    List (List (Tensor × Nat)) × List (List (Tensor × Nat)) :=
  let k := split_count limit 0
      ((device_grads.headD []).map (fun gv => tensorSize gv.1))
  if (device_grads.headD []).length ≤ k then
    (device_grads.map (fun row => row.take k), [])
  else
    (device_grads.map (fun row => row.take k),
     device_grads.map (fun row => row.drop k))

/-- The range loop of `VariableMgrDistributedAllReduce.
preprocess_device_grads` (lines 467-473): process the parsed spec ranges in
order, each consuming a batch from the shrinking remainder (`limit < 0`
takes the entire remaining set).  Returns the per-range batches and the
final remainder. -/
def allReduceRanges : List AllReduceSpecTuple →
    List (List (Tensor × Nat)) →
    List (List (List (Tensor × Nat))) × List (List (Tensor × Nat))
  | [], remaining_grads => ([], remaining_grads)
  | spec_tuple :: rest, remaining_grads =>
      let step :=
        if spec_tuple.limit < 0 then (remaining_grads, [])
        else split_grads_by_size spec_tuple.limit remaining_grads
      let next := allReduceRanges rest step.2
      (step.1 :: next.1, next.2)

/-- Modelled from the spec: `allreduce.sum_gradients_all_reduce` (not in
the source tree).  Per the spec's tree-reduction contract, it reduces each
parameter position across all device rows and leaves every device holding
the combined (summed) gradient, paired with that device's own handle; the
algorithm name, shard count and small-gradient batching thresholds affect
scheduling, not the final value. -/
def sum_gradients_all_reduce (this_grads : List (List (Tensor × Nat))) :
    List (List (Tensor × Nat)) :=
  this_grads.map (fun row =>
    (List.range row.length).map (fun j =>
      (sumTensors (colGrads this_grads j), (row.getD j default).2)))

/-- `VariableMgrDistributedAllReduce.preprocess_device_grads`
(lines 464-496): run the range loop, aggregate each non-empty batch and
concatenate per-device (`aggregated_grads[i] += range_agg_grads[i]`), then
`assert not remaining_grads` (a fatal `AssertionError` when it fails), and
return the per-row device set (`grads[0].device` per row, abstracted as
`deviceOfRow` since tensor placement is runtime metadata) together with the
aggregated per-device lists. -/
def distributedAllReduce_preprocess_device_grads
    (spec : List AllReduceSpecTuple)
    (deviceOfRow : List (Tensor × Nat) → String)
    (device_grads : List (List (Tensor × Nat))) :
    Except String (List String × List (List (Tensor × Nat))) :=
  let ranges := allReduceRanges spec device_grads
  let aggregated_grads := ranges.1.foldl
    (fun agg this_grads =>
      if this_grads.isEmpty then agg
      else
        let range_agg_grads := sum_gradients_all_reduce this_grads
        if agg.isEmpty then range_agg_grads
        else (agg.zip range_agg_grads).map (fun p => p.1 ++ p.2)) []
  if ranges.2.isEmpty then
    Except.ok (device_grads.map deviceOfRow, aggregated_grads)
  else Except.error "assert not remaining_grads"

/-- `VariableMgrDistributedAllReduce.get_gradients_to_apply`
(lines 498-503): explicit range check raising `ValueError`, then plain
indexing. -/
def distributedAllReduce_get_gradients_to_apply (device_num : Nat)
    (gradient_state : List (List (Tensor × Nat))) :
    Except String (List (Tensor × Nat)) :=
  if gradient_state.length ≤ device_num then
    Except.error "device_num exceeds length of device_grads"
  else Except.ok (gradient_state.getD device_num [])

/-- Modelled from the spec: the mean-mode aggregation primitives of
`variable_mgr_util` (`aggregate_gradients_using_copy`,
`aggregate_gradients_using_copy_with_variable_colocation`,
`aggregate_gradients_using_copy_with_device_selection` with
`use_mean=True`; none is in the source tree).  Per the spec, each parameter
position is summed across replicas and divided by the replica count;
integer division stands in for the pointwise float division — no claim
inspects a mean value. -/
def aggregate_gradients_using_copy_with_mean {β : Type} [Inhabited β]
    (device_grads : List (List (Tensor × β))) : List (Tensor × β) :=
  match device_grads with
  | [] => []
  | row0 :: _ =>
      (List.range row0.length).map (fun j =>
        let col := colGrads device_grads j
        let s := sumTensors col
        ((⟨s.shape, s.data.map (fun x => x / (col.length : Int))⟩ : Tensor),
         (row0.getD j default).2))

/-- `VariableMgrLocalFetchFromPS.get_gradients_to_apply` (lines 195-204):
`assert device_num == 0` (a fatal `AssertionError` otherwise), then
mean-mode copy aggregation. -/
def localFetchFromPS_get_gradients_to_apply (device_num : Nat)
    (gradient_state : List (List (Tensor × Nat))) :
    Option (List (Tensor × Nat)) :=
  if device_num ≠ 0 then none
  else some (aggregate_gradients_using_copy_with_mean gradient_state)

/-- `VariableMgrDistributedFetchFromPS.get_gradients_to_apply`
(lines 558-565): `assert device_num == 0`, then mean-mode copy
aggregation. -/
def distributedFetchFromPS_get_gradients_to_apply (device_num : Nat)
    (gradient_state : List (List (Tensor × Nat))) :
    Option (List (Tensor × Nat)) :=
  if device_num ≠ 0 then none
  else some (aggregate_gradients_using_copy_with_mean gradient_state)

/-- Modelled from the spec: the coordination name scope
`variable_mgr_util.PS_SHADOW_VAR_PREFIX` of shadow variables; its concrete
value plays no role in any theorem below. -/
def psShadowVarStr : String := "ps_var"

/-- `VariableMgrDistributedReplicated.get_gradients_to_apply`
(lines 627-649): mean-mode aggregation of the whole matrix, then for every
pair a shadow variable named `PS_SHADOW_VAR_PREFIX + '/' + v.name` with a
trailing `':0'` port stripped.  `device_num` is never read: no range check
exists and every index yields the same result. -/
def distributedReplicated_get_gradients_to_apply (device_num : Nat)
    (gradient_state : List (List (Tensor × String))) :
    List (Tensor × String) :=
  let _ := device_num
  (aggregate_gradients_using_copy_with_mean gradient_state).map
    (fun gv =>
      let my_name := psShadowVarStr ++ "/" ++ gv.2
      let my_name := if strEndsWith my_name ":0" then strDropRight my_name 2
                     else my_name
      (gv.1, my_name))

/-! ### Repacking (Local-replicated with `gradient_repacking = K > 0`) -/

/-- `tf.split(xs, sizes)` on a 1-D tensor: successive take/drop chunks. -/
def splitBySizes : List Nat → List Int → List (List Int)
  | [], _ => []
  | n :: ns, xs => xs.take n :: splitBySizes ns (xs.drop n)

/-- The split sizes of the repacking path (lines 335-339):
`split_size = total_grad_size // num_splits`, `split_size_last =
total_grad_size - split_size * (num_splits - 1)`, `split_sizes =
[split_size] * (num_splits - 1) + [split_size_last]`. -/
def repack_split_sizes (num_splits total_grad_size : Nat) : List Nat :=
  List.replicate (num_splits - 1) (total_grad_size / num_splits) ++
    [total_grad_size - (total_grad_size / num_splits) * (num_splits - 1)]

/-- Modelled from the spec:
`variable_mgr_util.aggregate_gradients_using_hierarchical_copy` (not in the
source tree).  Per the spec it is a two-level reduction (within-host, then
across hosts) after which every device row holds the identical combined
(summed) gradient for each parameter position, paired with that row's own
handle. -/
def aggregate_gradients_using_hierarchical_copy {β : Type} [Inhabited β]
    (device_grads : List (List (Tensor × β))) :
    List (List (Tensor × β)) :=
  device_grads.map (fun row =>
    (List.range row.length).map (fun j =>
      (sumTensors (colGrads device_grads j), (row.getD j default).2)))

/-- `VariableMgrLocalReplicated.preprocess_device_grads`, repacking branch
(lines 313-389): per tower, flatten all gradients, record shapes and sizes,
concatenate, split into `num_splits` packs (pseudo-gradients with a null
handle), aggregate the packs with hierarchical copy, then per tower
concatenate the summed packs back, re-split by the recorded sizes and
reshape to the recorded shapes, pairing with the original variables. -/
def localReplicated_preprocess_repack (num_splits : Nat)
    (device_grads : List (List (Tensor × Nat))) :
    List (List (Tensor × Nat)) :=
  let device_grad_packs := device_grads.map (fun tower_grads_and_vars =>
    let flat_grads := tower_grads_and_vars.map (fun gv => gv.1.data)
    let concat_grads := flat_grads.join
    let total_grad_size := concat_grads.length
    let split_sizes := repack_split_sizes num_splits total_grad_size
    let grad_packs := splitBySizes split_sizes concat_grads
    grad_packs.map (fun p => ((⟨[p.length], p⟩ : Tensor),
                              (none : Option Nat))))
  let summed_device_grad_packs :=
    aggregate_gradients_using_hierarchical_copy device_grad_packs
  (summed_device_grad_packs.zip device_grads).map (fun sp =>
    let summed_tower_grad_packs := sp.1
    let tower_grads_and_vars := sp.2
    let tower_shapes := tower_grads_and_vars.map (fun gv => gv.1.shape)
    let tower_sizes := tower_grads_and_vars.map (fun gv => gv.1.data.length)
    let pack_data := summed_tower_grad_packs.map (fun gv => gv.1.data)
    let device_grads_concat := pack_data.join
    let grads_with_sizes := splitBySizes tower_sizes device_grads_concat
    let grads_with_shapes := (tower_shapes.zip grads_with_sizes).map
        (fun sd => (⟨sd.1, sd.2⟩ : Tensor))
    (grads_with_shapes.zip tower_grads_and_vars).map
      (fun ge => (ge.1, ge.2.2)))

/-! ### NaN/Inf detection (Independent mode) -/

/-- A floating-point payload value: either a finite value or a non-finite
one (NaN or an infinity); `tf.is_finite` is the discriminator. -/
inductive FpVal where
  | fin (n : Int)
  | notFin
deriving DecidableEq, Repr

/-- `tf.is_finite` on one element. -/
def FpVal.is_finite : FpVal → Bool
  | fin _ => true
  | notFin => false

/-- `VariableMgrIndependent.get_gradients_to_apply` (lines 159-172):
indexing `device_grads[device_num]` first (Python `IndexError` on an
out-of-range index becomes `none`, leaving the flag untouched); only when
automatic loss scaling is enabled and `device_num == 0` is
`self.grad_has_inf_nan` recomputed as `logical_not(reduce_all([reduce_all(
is_finite(g)) for g, _ in tower_grad]))`; the tower's own gradient list is
returned unmodified.  The result pairs the returned list with the new value
of the `grad_has_inf_nan` field. -/
def independent_get_gradients_to_apply (enable_auto_loss_scale : Bool)
    (grad_has_inf_nan : Option Bool) (device_num : Nat)
    (device_grads : List (List (List FpVal × Nat))) :
    Option (List (List FpVal × Nat)) × Option Bool :=
  match device_grads.get? device_num with
  | none => (none, grad_has_inf_nan)
  | some tower_grad =>
      if enable_auto_loss_scale && device_num == 0 then
        let has_inf_nan_list :=
          tower_grad.map (fun gv => gv.1.all FpVal.is_finite)
        (some tower_grad, some (!has_inf_nan_list.all id))
      else (some tower_grad, grad_has_inf_nan)

/-! ### Constructors (configuration errors) -/

/-- `VariableMgrLocalReplicated.__init__` (lines 262-274).
`parse_all_reduce_spec` belongs to the `allreduce` module, which is not in
the source tree; it is passed in as a function.  A non-empty spec string is
parsed; a parse with more than one (or zero) ranges is the forbidden hybrid
spec and raises `ValueError` at construction time. -/
def VariableMgrLocalReplicated_init
    (parse_all_reduce_spec : String → List AllReduceSpecTuple)
    (all_reduce_spec : String) : Except String (Option AllReduceSpecTuple) :=
  if all_reduce_spec = "" then Except.ok none
  else
    match parse_all_reduce_spec all_reduce_spec with
    | [s] => Except.ok (some s)
    | _ => Except.error
        "replicated mode does not support hybrid all-reduce strategies"

/-- `VariableMgrDistributedAllReduce.__init__` (lines 433-446): an empty
`all_reduce_spec` raises `ValueError` at construction time; an empty parse
result raises as well. -/
def VariableMgrDistributedAllReduce_init
    (parse_all_reduce_spec : String → List AllReduceSpecTuple)
    (all_reduce_spec : String) : Except String (List AllReduceSpecTuple) :=
  if all_reduce_spec = "" then
    Except.error "distributed_all_reduce requires a non-empty all_reduce_spec"
  else
    let spec := parse_all_reduce_spec all_reduce_spec
    if spec.isEmpty then Except.error "all_reduce_spec must be specified"
    else Except.ok spec

/-! ### Distributed-replicated apply/barrier/broadcast graph -/

/-- The graph nodes created by `VariableMgrDistributedReplicated.
append_apply_gradients_ops`, each carrying the nodes it depends on:
`applyGrad i` is `opt.apply_gradients([(g, v)])` for parameter `i`;
`barrier key dep` is the cross-worker rendezvous returned by
`add_sync_queues_and_barrier(key, [dep])` (modelled from the spec: that
helper lives in `benchmark_cnn`, not in the source tree — per the spec it
completes only once every worker's dependency op has run); `readValue i
dep` is `v.read_value()` under `control_dependencies([barrier])`;
`assignOp d i ctrl input` is `device_grads[d][i][1].assign(updated_value)`
under the same control dependency. -/
inductive GraphOp where
  | applyGrad (param : Nat)
  | barrier (key : String) (dep : GraphOp)
  | readValue (param : Nat) (dep : GraphOp)
  | assignOp (dev : Nat) (param : Nat) (ctrl : GraphOp) (input : GraphOp)
deriving DecidableEq, Repr

/-- All ops an op is (transitively) ordered after in the dependency
graph. -/
def GraphOp.strictDeps : GraphOp → List GraphOp
  | .applyGrad _ => []
  | .barrier _ d => d :: d.strictDeps
  | .readValue _ d => d :: d.strictDeps
  | .assignOp _ _ c inp => c :: inp :: (c.strictDeps ++ inp.strictDeps)

/-- `a` can only run after `b` has completed. -/
def GraphOp.DependsOn (a b : GraphOp) : Prop := b ∈ a.strictDeps

/-- The barrier name `'replicate_variable_%s' % i` (line 663). -/
def replicate_variable_barrier_key (i : Nat) : String :=
  "replicate_variable_" ++ toString i

/-- `get_apply_gradients_ops_func` inside `VariableMgrDistributedReplicated.
append_apply_gradients_ops` (lines 655-670): for each parameter index `i`,
apply the combined gradient, enter the barrier keyed by `i`, and under its
control dependency read the updated shadow value and assign it to every
device's local copy.  Only the assignment ops are collected in
`apply_gradients_ops`. -/
def distributedReplicated_apply_gradients_ops
    (num_params num_devices : Nat) : List GraphOp :=
  (List.range num_params).bind (fun i =>
    let apply_gradient_op := GraphOp.applyGrad i
    let b := GraphOp.barrier (replicate_variable_barrier_key i)
        apply_gradient_op
    let updated_value := GraphOp.readValue i b
    (List.range num_devices).map (fun my_d =>
      GraphOp.assignOp my_d i b updated_value))

/-! ### Post-init sync and checkpoint selection -/

/-- `v.name.split('/')[0]`. -/
def name_first_component (v : String) : String := (splitSlash v).headD ""

/-- `split_name[0] = 'v0'; '/'.join(split_name)`: the name of the
replica-0 copy of a replicated variable. -/
def v0_copy_name (v : String) : String :=
  String.intercalate "/" ("v0" :: (splitSlash v).tail)

/-- Loop body of `VariableMgrLocalReplicated.get_post_init_ops`
(lines 397-410): variables in scope `v0` or with names not starting with
`v` are skipped; every other variable receives one assignment from the
identically named `v0`-scoped variable, looked up in `var_by_name` (a
missing key is a fatal Python `KeyError`, hence `none`). -/
def localReplicated_post_init_go (global_variables : List String) :
    List String → Option (List (String × String))
  | [] => some []
  | v :: vs =>
      if name_first_component v == "v0" || !strStartsWith v "v" then
        localReplicated_post_init_go global_variables vs
      else if global_variables.contains (v0_copy_name v) then
        (localReplicated_post_init_go global_variables vs).map
          (fun ops => (v, v0_copy_name v) :: ops)
      else none

/-- `VariableMgrLocalReplicated.get_post_init_ops` (lines 397-410): one
`(target, source)` assignment per non-`v0` replicated variable. -/
def localReplicated_get_post_init_ops (global_variables : List String) :
    Option (List (String × String)) :=
  localReplicated_post_init_go global_variables global_variables

/-- `VariableMgrLocalReplicated.savable_variables` (lines 412-419): keep a
global variable iff its first name component is `v0` or its name does not
start with `v`. -/
def localReplicated_savable_variables (global_variables : List String) :
    List String :=
  global_variables.filter
    (fun v => name_first_component v == "v0" || !strStartsWith v "v")

/-- Loop body of `VariableMgrDistributedAllReduce.get_post_init_ops`
(lines 505-518), transcribed from that class. -/
def distributedAllReduce_post_init_go (global_variables : List String) :
    List String → Option (List (String × String))
  | [] => some []
  | v :: vs =>
      if name_first_component v == "v0" || !strStartsWith v "v" then
        distributedAllReduce_post_init_go global_variables vs
      else if global_variables.contains (v0_copy_name v) then
        (distributedAllReduce_post_init_go global_variables vs).map
          (fun ops => (v, v0_copy_name v) :: ops)
      else none

/-- `VariableMgrDistributedAllReduce.get_post_init_ops` (lines 505-518). -/
def distributedAllReduce_get_post_init_ops (global_variables : List String) :
    Option (List (String × String)) :=
  distributedAllReduce_post_init_go global_variables global_variables

/-- `VariableMgrDistributedAllReduce.savable_variables` (lines 520-527). -/
def distributedAllReduce_savable_variables (global_variables : List String) :
    List String :=
  global_variables.filter
    (fun v => name_first_component v == "v0" || !strStartsWith v "v")

/-- The claim-side reading of "belongs to replica 0's scope": the name is
under the `v0/` naming scope, the test the module itself uses for per-device
variables (`v.name.startswith('v%s/' % abs_device_num)`, line 135). -/
def belongs_to_replica0_scope (v : String) : Bool := strStartsWith v "v0/"

/-- Positional alignment of a device-gradient matrix: every device row has
the same length (the invariant the module's docstring states for
`device_grads[t][g]`). -/
def AlignedRows (device_grads : List (List (Tensor × Nat))) : Prop :=
  ∀ row ∈ device_grads, row.length = (device_grads.headD []).length

instance (device_grads : List (List (Tensor × Nat))) :
    Decidable (AlignedRows device_grads) := by
  unfold AlignedRows
  infer_instance

/-! ## Theorems -/

/-- `zip` indexing helper: an index holds a pair iff it holds in both
components. -/
theorem get?_zip_eq {α β : Type} (l1 : List α) (l2 : List β) (j : Nat) :
    (l1.zip l2).get? j =
      (l1.get? j).bind (fun a => (l2.get? j).map (fun b => (a, b))) := by
  induction l1 generalizing l2 j with
  | nil => simp [List.zip]
  | cons a l1 ih =>
    cases l2 with
    | nil => cases j <;> simp [List.zip]
    | cons b l2 =>
      cases j with
      | zero => simp
      | succ j => simpa using ih l2 j

/-- C1: in Local-replicated mode (no all-reduce spec, hierarchical copy
disabled), for every aligned device-gradient matrix, position `j` of the
per-replica list returned by `get_gradients_to_apply i` carries the sum of
all replicas' gradients at position `j` — an expression independent of `i`,
hence identical across all returned per-replica lists — paired with replica
`i`'s own variable. -/
theorem localReplicated_sum_per_position
    (device_grads : List (List (Tensor × Nat))) (L : Nat)
    (haligned : ∀ row ∈ device_grads, row.length = L)
    (i j : Nat) (hi : i < device_grads.length) (hj : j < L) :
    ∃ (row orig : List (Tensor × Nat)) (e : Tensor × Nat),
      device_grads.get? i = some orig ∧
      orig.get? j = some e ∧
      localReplicated_get_gradients_to_apply i
        (localReplicated_aggregated_device_grads device_grads) = some row ∧
      row.get? j = some (sumTensors (colGrads device_grads j), e.2) := by
  cases hdg : device_grads with
  | nil => subst hdg; simp at hi
  | cons hd tl =>
    subst hdg
    have hhd : hd.length = L := haligned hd (by simp)
    have horig := List.get?_eq_get hi
    set orig := (hd :: tl).get ⟨i, hi⟩ with horig_def
    have horiglen : orig.length = L :=
      haligned orig (List.get_mem _ _ hi)
    have hj' : j < orig.length := horiglen ▸ hj
    have he := List.get?_eq_get hj'
    set e := orig.get ⟨j, hj'⟩ with he_def
    refine ⟨(orig.zip (aggregate_gradients_using_copy_with_device_selection
        (hd :: tl))).map (fun p => (p.2.1, p.1.2)), orig, e, horig, he,
        ?_, ?_⟩
    · simp only [localReplicated_get_gradients_to_apply,
        localReplicated_aggregated_device_grads]
      rw [List.get?_map, horig]
      rfl
    · have hagg : (aggregate_gradients_using_copy_with_device_selection
          (hd :: tl)).get? j =
          some (sumTensors (colGrads (hd :: tl) j),
                (hd.getD j default).2) := by
        simp only [aggregate_gradients_using_copy_with_device_selection]
        rw [List.get?_map, List.get?_range (hhd ▸ hj)]
        rfl
      rw [List.get?_map, get?_zip_eq, he, hagg]
      rfl

/-- Witness for C1 at a concrete 2-replica, 1-parameter matrix. -/
theorem localReplicated_sum_per_position_witness :
    (∀ row ∈ [[((⟨[1], [2]⟩ : Tensor), 5)], [((⟨[1], [3]⟩ : Tensor), 6)]],
        row.length = 1) ∧
    (∃ (row orig : List (Tensor × Nat)) (e : Tensor × Nat),
      [[((⟨[1], [2]⟩ : Tensor), 5)],
       [((⟨[1], [3]⟩ : Tensor), 6)]].get? 1 = some orig ∧
      orig.get? 0 = some e ∧
      localReplicated_get_gradients_to_apply 1
        (localReplicated_aggregated_device_grads
          [[((⟨[1], [2]⟩ : Tensor), 5)], [((⟨[1], [3]⟩ : Tensor), 6)]]) =
        some row ∧
      row.get? 0 = some (sumTensors (colGrads
          [[((⟨[1], [2]⟩ : Tensor), 5)], [((⟨[1], [3]⟩ : Tensor), 6)]] 0),
        e.2)) :=
  ⟨by decide, localReplicated_sum_per_position _ 1 (by decide) 1 0
    (by decide) (by decide)⟩

/-- C2: across all replication modes, `preprocess_device_grads` returns an
`apply_gradients_devices` list whose length is the number of distinct
update targets the mode defines: 1 for the parameter-server (coordinator)
modes and the number of replicas for the replicated modes (the device list
driving replication has one device per replica; in distributed all-reduce
mode the full device set is built with one device per replica row). -/
theorem preprocess_apply_devices_length (cnn : BenchmarkCNN)
    (device_grads : List (List (Tensor × Nat)))
    (device_grads_named : List (List (Tensor × String)))
    (spec : List AllReduceSpecTuple)
    (deviceOfRow : List (Tensor × Nat) → String)
    (hdev : cnn.devices.length = device_grads.length) :
    (independent_preprocess_device_grads cnn device_grads).1.length =
      device_grads.length ∧
    (localReplicated_preprocess_device_grads cnn device_grads).1.length =
      device_grads.length ∧
    (localFetchFromPS_preprocess_device_grads cnn device_grads).1.length
      = 1 ∧
    (distributedFetchFromPS_preprocess_device_grads cnn
      device_grads).1.length = 1 ∧
    (distributedReplicated_preprocess_device_grads cnn
      device_grads_named).1.length = 1 ∧
    ((∃ agg, distributedAllReduce_preprocess_device_grads spec deviceOfRow
        device_grads = Except.ok (device_grads.map deviceOfRow, agg)) ∨
      distributedAllReduce_preprocess_device_grads spec deviceOfRow
        device_grads = Except.error "assert not remaining_grads") ∧
    (device_grads.map deviceOfRow).length = device_grads.length := by
  refine ⟨?_, ?_, rfl, rfl, rfl, ?_, by simp⟩
  · simpa [independent_preprocess_device_grads] using hdev
  · simpa [localReplicated_preprocess_device_grads] using hdev
  · by_cases h : (allReduceRanges spec device_grads).2.isEmpty
    · refine Or.inl ⟨(allReduceRanges spec device_grads).1.foldl
        (fun agg this_grads =>
          if this_grads.isEmpty then agg
          else
            let range_agg_grads := sum_gradients_all_reduce this_grads
            if agg.isEmpty then range_agg_grads
            else (agg.zip range_agg_grads).map (fun p => p.1 ++ p.2)) [], ?_⟩
      simp only [distributedAllReduce_preprocess_device_grads, h, if_true]
    · exact Or.inr (by
        simp [distributedAllReduce_preprocess_device_grads, h])

/-- Witness for C2 at a concrete configuration with two replicas. -/
theorem preprocess_apply_devices_length_witness :
    ((⟨["d0", "d1"], ["d0", "d1"], "cpu"⟩ : BenchmarkCNN).devices.length =
      ([[((⟨[1], [2]⟩ : Tensor), 5)], [((⟨[1], [3]⟩ : Tensor), 6)]]).length) ∧
    ((independent_preprocess_device_grads ⟨["d0", "d1"], ["d0", "d1"], "cpu"⟩
        [[((⟨[1], [2]⟩ : Tensor), 5)],
         [((⟨[1], [3]⟩ : Tensor), 6)]]).1.length =
      ([[((⟨[1], [2]⟩ : Tensor), 5)], [((⟨[1], [3]⟩ : Tensor), 6)]]).length ∧
      (localReplicated_preprocess_device_grads
        ⟨["d0", "d1"], ["d0", "d1"], "cpu"⟩
        [[((⟨[1], [2]⟩ : Tensor), 5)],
         [((⟨[1], [3]⟩ : Tensor), 6)]]).1.length =
        ([[((⟨[1], [2]⟩ : Tensor), 5)],
          [((⟨[1], [3]⟩ : Tensor), 6)]]).length ∧
      (localFetchFromPS_preprocess_device_grads
        ⟨["d0", "d1"], ["d0", "d1"], "cpu"⟩
        [[((⟨[1], [2]⟩ : Tensor), 5)],
         [((⟨[1], [3]⟩ : Tensor), 6)]]).1.length = 1 ∧
      (distributedFetchFromPS_preprocess_device_grads
        ⟨["d0", "d1"], ["d0", "d1"], "cpu"⟩
        [[((⟨[1], [2]⟩ : Tensor), 5)],
         [((⟨[1], [3]⟩ : Tensor), 6)]]).1.length = 1 ∧
      (distributedReplicated_preprocess_device_grads
        ⟨["d0", "d1"], ["d0", "d1"], "cpu"⟩
        [[((⟨[1], [2]⟩ : Tensor), "a:0")]]).1.length = 1 ∧
      ((∃ agg, distributedAllReduce_preprocess_device_grads
          [⟨"xring", 1, (-1 : Int)⟩] (fun _ => "d")
          [[((⟨[1], [2]⟩ : Tensor), 5)], [((⟨[1], [3]⟩ : Tensor), 6)]] =
          Except.ok (([[((⟨[1], [2]⟩ : Tensor), 5)],
            [((⟨[1], [3]⟩ : Tensor), 6)]]).map (fun _ => "d"), agg)) ∨
        distributedAllReduce_preprocess_device_grads
          [⟨"xring", 1, (-1 : Int)⟩] (fun _ => "d")
          [[((⟨[1], [2]⟩ : Tensor), 5)], [((⟨[1], [3]⟩ : Tensor), 6)]] =
          Except.error "assert not remaining_grads") ∧
      (([[((⟨[1], [2]⟩ : Tensor), 5)],
         [((⟨[1], [3]⟩ : Tensor), 6)]]).map
          (fun _ => "d")).length =
        ([[((⟨[1], [2]⟩ : Tensor), 5)],
          [((⟨[1], [3]⟩ : Tensor), 6)]]).length) :=
  ⟨rfl, preprocess_apply_devices_length _ _ _ _ _ rfl⟩

/-- Both branches of `split_grads_by_size` take the same column-prefix of
every row. -/
theorem split_grads_by_size_fst (limit : Int)
    (dg : List (List (Tensor × Nat))) :
    (split_grads_by_size limit dg).1 =
      dg.map (fun row => row.take (split_count limit 0
        ((dg.headD []).map (fun gv => tensorSize gv.1)))) := by
  simp only [split_grads_by_size]
  split <;> rfl

/-- One unfolding step of the range loop. -/
theorem allReduceRanges_cons (t : AllReduceSpecTuple)
    (ts : List AllReduceSpecTuple) (dg : List (List (Tensor × Nat))) :
    allReduceRanges (t :: ts) dg =
      ((if t.limit < 0 then dg else (split_grads_by_size t.limit dg).1) ::
        (allReduceRanges ts (if t.limit < 0 then []
          else (split_grads_by_size t.limit dg).2)).1,
       (allReduceRanges ts (if t.limit < 0 then []
          else (split_grads_by_size t.limit dg).2)).2) := by
  simp only [allReduceRanges]
  split_ifs <;> rfl

/-- An exhausted gradient set stays exhausted through the range loop. -/
theorem allReduceRanges_nil_input (spec : List AllReduceSpecTuple) :
    allReduceRanges spec [] = (spec.map (fun _ => []), []) := by
  induction spec with
  | nil => rfl
  | cons t ts ih =>
    have hsplit : split_grads_by_size t.limit [] = ([], []) := by
      simp [split_grads_by_size, split_count]
    rw [allReduceRanges_cons]
    split_ifs with h <;> simp [hsplit, ih]

/-- Indexing a row-wise transformation that fixes the empty row. -/
theorem getD_map_rows {α : Type} (dg : List (List α)) (f : List α → List α)
    (hf : f [] = []) (r : Nat) :
    (dg.map f).getD r [] = f (dg.getD r []) := by
  rcases h : dg[r]? with _ | a
  · simp [List.getD_eq_getElem?_getD, List.getElem?_map, h, hf]
  · simp [List.getD_eq_getElem?_getD, List.getElem?_map, h]

/-- Row alignment survives dropping a column-prefix from every row. -/
theorem alignedRows_map_drop (dg : List (List (Tensor × Nat))) (k : Nat)
    (hal : AlignedRows dg) :
    AlignedRows (dg.map (fun row => row.drop k)) := by
  intro row hrow
  rcases List.mem_map.mp hrow with ⟨orig, horig, rfl⟩
  cases dg with
  | nil => cases horig
  | cons hd tl =>
    have h1 : orig.length = hd.length := hal orig horig
    simp [h1]

/-- A row of an aligned matrix is never longer than the head row. -/
theorem alignedRows_getD_length (dg : List (List (Tensor × Nat)))
    (hal : AlignedRows dg) (r : Nat) :
    (dg.getD r []).length ≤ (dg.headD []).length := by
  rcases h : dg[r]? with _ | row
  · simp [List.getD_eq_getElem?_getD, h]
  · have hmem : row ∈ dg := List.getElem?_mem h
    simp [List.getD_eq_getElem?_getD, h, hal row hmem]

/-- In-order accounting of the range loop: at every row index, the
concatenation of the per-range batches followed by the final remainder is
exactly the input row. -/
theorem allReduceRanges_accounting (spec : List AllReduceSpecTuple)
    (dg : List (List (Tensor × Nat))) (hal : AlignedRows dg) (r : Nat) :
    ((allReduceRanges spec dg).1.map (fun p => p.getD r [])).join ++
      (allReduceRanges spec dg).2.getD r [] = dg.getD r [] := by
  induction spec generalizing dg with
  | nil => simp [allReduceRanges]
  | cons t ts ih =>
    rw [allReduceRanges_cons]
    by_cases hneg : t.limit < 0
    · simp only [if_pos hneg, allReduceRanges_nil_input, List.map_cons,
        List.join_cons, List.map_map, List.append_assoc]
      simp [Function.comp]
    · simp only [if_neg hneg, List.map_cons, List.join_cons,
        List.append_assoc]
      set k := split_count t.limit 0
        ((dg.headD []).map (fun gv => tensorSize gv.1)) with hkdef
      by_cases hcons : (dg.headD []).length ≤ k
      · have hsplit : split_grads_by_size t.limit dg =
            (dg.map (fun row => row.take k), []) := by
          simp only [split_grads_by_size]
          rw [if_pos (by rw [← hkdef]; exact hcons)]
        rw [hsplit]
        simp only [allReduceRanges_nil_input, List.map_map]
        have htail :
            ((ts.map (fun _ => ([] : List (List (Tensor × Nat))))).map
              (fun p => p.getD r [])).join ++
              ([] : List (List (Tensor × Nat))).getD r [] = [] := by
          simp [List.map_map, Function.comp]
        rw [getD_map_rows _ _ (by simp) r]
        have htake : (dg.getD r []).take k = dg.getD r [] :=
          List.take_of_length_le
            (le_trans (alignedRows_getD_length dg hal r) hcons)
        simp only [List.map_map] at htail ⊢
        rw [htail, List.append_nil, htake]
      · have hsplit : split_grads_by_size t.limit dg =
            (dg.map (fun row => row.take k),
             dg.map (fun row => row.drop k)) := by
          simp only [split_grads_by_size]
          rw [if_neg (by rw [← hkdef]; omega)]
        rw [hsplit]
        rw [ih (dg.map (fun row => row.drop k))
          (alignedRows_map_drop dg k hal)]
        rw [getD_map_rows _ _ (by simp) r,
          getD_map_rows _ _ (by simp) r]
        exact List.take_append_drop k (dg.getD r [])

/-- An open-ended (`limit < 0`) range in the spec leaves an empty final
remainder. -/
theorem allReduceRanges_rem_empty (spec : List AllReduceSpecTuple)
    (dg : List (List (Tensor × Nat))) (t : AllReduceSpecTuple)
    (ht : t ∈ spec) (hneg : t.limit < 0) :
    (allReduceRanges spec dg).2 = [] := by
  induction spec generalizing dg with
  | nil => cases ht
  | cons s ss ih =>
    rw [allReduceRanges_cons]
    rcases List.mem_cons.mp ht with rfl | hmem
    · simp [if_pos hneg, allReduceRanges_nil_input]
    · split_ifs with h
      · simp [allReduceRanges_nil_input]
      · exact ih _ hmem

/-- C3: in Distributed all-reduce mode the parsed spec ranges are processed
in order against a shrinking remainder (at every row index the concatenated
batches followed by the final remainder reproduce the input row, so every
gradient is accounted for by exactly one range); a range with `limit < 0`
takes the entire remaining set and a range with `limit ≥ 0` takes a
size-bounded column-prefix split; the preprocessing step succeeds exactly
when the final remainder is empty and otherwise fails with the fatal
assertion. -/
theorem distributedAllReduce_partitioning (spec : List AllReduceSpecTuple)
    (dg : List (List (Tensor × Nat)))
    (deviceOfRow : List (Tensor × Nat) → String)
    (t : AllReduceSpecTuple) (ts : List AllReduceSpecTuple)
    (r : Nat) (hal : AlignedRows dg) :
    ((allReduceRanges spec dg).1.map (fun p => p.getD r [])).join ++
      (allReduceRanges spec dg).2.getD r [] = dg.getD r [] ∧
    ((allReduceRanges spec dg).2 = [] ∨
      spec.all (fun s => decide (0 ≤ s.limit)) = true) ∧
    ((∃ res, distributedAllReduce_preprocess_device_grads spec deviceOfRow
        dg = Except.ok res) ↔ (allReduceRanges spec dg).2 = []) ∧
    (distributedAllReduce_preprocess_device_grads spec deviceOfRow dg =
        Except.error "assert not remaining_grads" ↔
      (allReduceRanges spec dg).2 ≠ []) ∧
    (allReduceRanges (t :: ts) dg).1.head? = some
      (if t.limit < 0 then dg
       else dg.map (fun row => row.take (split_count t.limit 0
         ((dg.headD []).map (fun gv => tensorSize gv.1))))) := by
  refine ⟨allReduceRanges_accounting spec dg hal r, ?_, ?_, ?_, ?_⟩
  · by_cases hex : ∃ s ∈ spec, s.limit < 0
    · rcases hex with ⟨s, hs, hneg⟩
      exact Or.inl (allReduceRanges_rem_empty spec dg s hs hneg)
    · refine Or.inr ?_
      rw [List.all_eq_true]
      intro s hs
      simp only [decide_eq_true_eq]
      by_contra hlt
      exact hex ⟨s, hs, by omega⟩
  · constructor
    · rintro ⟨res, hres⟩
      by_contra hne
      have hfalse : (allReduceRanges spec dg).2.isEmpty = false := by
        simpa [List.isEmpty_iff] using hne
      simp [distributedAllReduce_preprocess_device_grads, hfalse] at hres
    · intro hnil
      refine ⟨(dg.map deviceOfRow, (allReduceRanges spec dg).1.foldl
        (fun agg this_grads =>
          if this_grads.isEmpty then agg
          else
            let range_agg_grads := sum_gradients_all_reduce this_grads
            if agg.isEmpty then range_agg_grads
            else (agg.zip range_agg_grads).map (fun p => p.1 ++ p.2)) []),
        ?_⟩
      simp only [distributedAllReduce_preprocess_device_grads, hnil,
        List.isEmpty_nil, if_true]
  · constructor
    · intro herr hnil
      have : (allReduceRanges spec dg).2.isEmpty = true := by
        simp [hnil]
      simp [distributedAllReduce_preprocess_device_grads, this] at herr
    · intro hne
      have hfalse : (allReduceRanges spec dg).2.isEmpty = false := by
        simpa [List.isEmpty_iff] using hne
      simp [distributedAllReduce_preprocess_device_grads, hfalse]
  · rw [allReduceRanges_cons]
    by_cases hneg : t.limit < 0
    · simp [if_pos hneg]
    · simp [if_neg hneg, split_grads_by_size_fst]

/-- Witness for C3: two ranges (`limit = 3`, `limit = -1`) over an aligned
2-replica, 3-parameter matrix. -/
theorem distributedAllReduce_partitioning_witness :
    AlignedRows [[((⟨[2], [1, 2]⟩ : Tensor), 0), ((⟨[3], [3, 4, 5]⟩ : Tensor),
        1), ((⟨[2], [6, 7]⟩ : Tensor), 2)],
      [((⟨[2], [8, 9]⟩ : Tensor), 10), ((⟨[3], [1, 1, 1]⟩ : Tensor), 11),
        ((⟨[2], [2, 2]⟩ : Tensor), 12)]] ∧
    (((allReduceRanges [⟨"xring", 1, (3 : Int)⟩, ⟨"xring", 1, (-1 : Int)⟩]
        [[((⟨[2], [1, 2]⟩ : Tensor), 0), ((⟨[3], [3, 4, 5]⟩ : Tensor), 1),
          ((⟨[2], [6, 7]⟩ : Tensor), 2)],
         [((⟨[2], [8, 9]⟩ : Tensor), 10), ((⟨[3], [1, 1, 1]⟩ : Tensor), 11),
          ((⟨[2], [2, 2]⟩ : Tensor), 12)]]).1.map
        (fun p => p.getD 0 [])).join ++
      (allReduceRanges [⟨"xring", 1, (3 : Int)⟩, ⟨"xring", 1, (-1 : Int)⟩]
        [[((⟨[2], [1, 2]⟩ : Tensor), 0), ((⟨[3], [3, 4, 5]⟩ : Tensor), 1),
          ((⟨[2], [6, 7]⟩ : Tensor), 2)],
         [((⟨[2], [8, 9]⟩ : Tensor), 10), ((⟨[3], [1, 1, 1]⟩ : Tensor), 11),
          ((⟨[2], [2, 2]⟩ : Tensor), 12)]]).2.getD 0 [] =
      ([[((⟨[2], [1, 2]⟩ : Tensor), 0), ((⟨[3], [3, 4, 5]⟩ : Tensor), 1),
          ((⟨[2], [6, 7]⟩ : Tensor), 2)],
        [((⟨[2], [8, 9]⟩ : Tensor), 10), ((⟨[3], [1, 1, 1]⟩ : Tensor), 11),
          ((⟨[2], [2, 2]⟩ : Tensor), 12)]]).getD 0 [] ∧
      ((allReduceRanges [⟨"xring", 1, (3 : Int)⟩, ⟨"xring", 1, (-1 : Int)⟩]
          [[((⟨[2], [1, 2]⟩ : Tensor), 0), ((⟨[3], [3, 4, 5]⟩ : Tensor), 1),
            ((⟨[2], [6, 7]⟩ : Tensor), 2)],
           [((⟨[2], [8, 9]⟩ : Tensor), 10), ((⟨[3], [1, 1, 1]⟩ : Tensor), 11),
            ((⟨[2], [2, 2]⟩ : Tensor), 12)]]).2 = [] ∨
        (([⟨"xring", 1, (3 : Int)⟩, ⟨"xring", 1, (-1 : Int)⟩] :
            List AllReduceSpecTuple).all
          (fun s => decide (0 ≤ s.limit)) = true)) ∧
      ((∃ res, distributedAllReduce_preprocess_device_grads
          [⟨"xring", 1, (3 : Int)⟩, ⟨"xring", 1, (-1 : Int)⟩] (fun _ => "d")
          [[((⟨[2], [1, 2]⟩ : Tensor), 0), ((⟨[3], [3, 4, 5]⟩ : Tensor), 1),
            ((⟨[2], [6, 7]⟩ : Tensor), 2)],
           [((⟨[2], [8, 9]⟩ : Tensor), 10), ((⟨[3], [1, 1, 1]⟩ : Tensor), 11),
            ((⟨[2], [2, 2]⟩ : Tensor), 12)]] = Except.ok res) ↔
        (allReduceRanges [⟨"xring", 1, (3 : Int)⟩, ⟨"xring", 1, (-1 : Int)⟩]
          [[((⟨[2], [1, 2]⟩ : Tensor), 0), ((⟨[3], [3, 4, 5]⟩ : Tensor), 1),
            ((⟨[2], [6, 7]⟩ : Tensor), 2)],
           [((⟨[2], [8, 9]⟩ : Tensor), 10), ((⟨[3], [1, 1, 1]⟩ : Tensor), 11),
            ((⟨[2], [2, 2]⟩ : Tensor), 12)]]).2 = []) ∧
      (distributedAllReduce_preprocess_device_grads
          [⟨"xring", 1, (3 : Int)⟩, ⟨"xring", 1, (-1 : Int)⟩] (fun _ => "d")
          [[((⟨[2], [1, 2]⟩ : Tensor), 0), ((⟨[3], [3, 4, 5]⟩ : Tensor), 1),
            ((⟨[2], [6, 7]⟩ : Tensor), 2)],
           [((⟨[2], [8, 9]⟩ : Tensor), 10), ((⟨[3], [1, 1, 1]⟩ : Tensor), 11),
            ((⟨[2], [2, 2]⟩ : Tensor), 12)]] =
          Except.error "assert not remaining_grads" ↔
        (allReduceRanges [⟨"xring", 1, (3 : Int)⟩, ⟨"xring", 1, (-1 : Int)⟩]
          [[((⟨[2], [1, 2]⟩ : Tensor), 0), ((⟨[3], [3, 4, 5]⟩ : Tensor), 1),
            ((⟨[2], [6, 7]⟩ : Tensor), 2)],
           [((⟨[2], [8, 9]⟩ : Tensor), 10), ((⟨[3], [1, 1, 1]⟩ : Tensor), 11),
            ((⟨[2], [2, 2]⟩ : Tensor), 12)]]).2 ≠ []) ∧
      (allReduceRanges [⟨"xring", 1, (3 : Int)⟩]
        [[((⟨[2], [1, 2]⟩ : Tensor), 0), ((⟨[3], [3, 4, 5]⟩ : Tensor), 1),
          ((⟨[2], [6, 7]⟩ : Tensor), 2)],
         [((⟨[2], [8, 9]⟩ : Tensor), 10), ((⟨[3], [1, 1, 1]⟩ : Tensor), 11),
          ((⟨[2], [2, 2]⟩ : Tensor), 12)]]).1.head? = some
        (if (⟨"xring", 1, (3 : Int)⟩ : AllReduceSpecTuple).limit < 0 then
          [[((⟨[2], [1, 2]⟩ : Tensor), 0), ((⟨[3], [3, 4, 5]⟩ : Tensor), 1),
            ((⟨[2], [6, 7]⟩ : Tensor), 2)],
           [((⟨[2], [8, 9]⟩ : Tensor), 10), ((⟨[3], [1, 1, 1]⟩ : Tensor), 11),
            ((⟨[2], [2, 2]⟩ : Tensor), 12)]]
         else ([[((⟨[2], [1, 2]⟩ : Tensor), 0), ((⟨[3], [3, 4, 5]⟩ : Tensor),
            1), ((⟨[2], [6, 7]⟩ : Tensor), 2)],
           [((⟨[2], [8, 9]⟩ : Tensor), 10), ((⟨[3], [1, 1, 1]⟩ : Tensor), 11),
            ((⟨[2], [2, 2]⟩ : Tensor), 12)]]).map
           (fun row => row.take (split_count
             (⟨"xring", 1, (3 : Int)⟩ : AllReduceSpecTuple).limit 0
             ((([[((⟨[2], [1, 2]⟩ : Tensor), 0), ((⟨[3], [3, 4, 5]⟩ : Tensor),
                1), ((⟨[2], [6, 7]⟩ : Tensor), 2)],
               [((⟨[2], [8, 9]⟩ : Tensor), 10), ((⟨[3], [1, 1, 1]⟩ : Tensor),
                11), ((⟨[2], [2, 2]⟩ : Tensor), 12)]]).headD []).map
               (fun gv => tensorSize gv.1)))))) :=
  ⟨by decide, distributedAllReduce_partitioning _ _ _
    ⟨"xring", 1, (3 : Int)⟩ [] 0 (by decide)⟩

/-- `take` over an added count splits at the first summand. -/
theorem take_add_split {α : Type} : ∀ (m n : Nat) (l : List α),
    l.take (m + n) = l.take m ++ (l.drop m).take n
  | 0, n, l => by simp
  | m + 1, n, [] => by simp
  | m + 1, n, x :: xs => by
    simp only [Nat.succ_add, List.take_succ_cons, List.drop_succ_cons,
      List.cons_append, List.cons.injEq, true_and]
    exact take_add_split m n xs

/-- `tf.split` produces one chunk per requested size. -/
theorem splitBySizes_length (ns : List Nat) (xs : List Int) :
    (splitBySizes ns xs).length = ns.length := by
  induction ns generalizing xs with
  | nil => rfl
  | cons n ns ih => simp [splitBySizes, ih]

/-- Concatenating the chunks of `tf.split` gives back the leading
`ns.sum` elements of the buffer. -/
theorem splitBySizes_join (ns : List Nat) (xs : List Int) :
    (splitBySizes ns xs).join = xs.take ns.sum := by
  induction ns generalizing xs with
  | nil => simp [splitBySizes]
  | cons n ns ih =>
    simp only [splitBySizes, List.join_cons, ih, List.sum_cons]
    exact (take_add_split n ns.sum xs).symm

/-- Splitting a concatenation by the recorded original lengths restores the
original pieces. -/
theorem splitBySizes_of_lengths (ls : List (List Int)) :
    splitBySizes (ls.map List.length) ls.join = ls := by
  induction ls with
  | nil => rfl
  | cons l ls ih =>
    simp only [List.map_cons, splitBySizes, List.join_cons,
      List.take_left, List.drop_left, ih]

/-- The repack chunk sizes sum to the total buffer size. -/
theorem repack_split_sizes_sum (K T : Nat) :
    (repack_split_sizes K T).sum = T := by
  simp only [repack_split_sizes, List.sum_append, List.sum_cons,
    List.sum_nil, List.sum_const_nat, add_zero]
  have h1 : T / K * K ≤ T := Nat.div_mul_le_self T K
  have h2 : T / K * (K - 1) ≤ T / K * K :=
    Nat.mul_le_mul_left _ (Nat.sub_le K 1)
  have h3 : (K - 1) * (T / K) = T / K * (K - 1) := Nat.mul_comm _ _
  omega

/-- A map over `range l.length` that agrees with `l` pointwise is `l`. -/
theorem range_map_eq {α : Type} (l : List α) (f : Nat → α)
    (h : ∀ (j : Nat) (hj : j < l.length), f j = l.get ⟨j, hj⟩) :
    (List.range l.length).map f = l := by
  apply List.ext_get (by simp)
  intro i h1 h2
  simp only [List.get_eq_getElem, List.getElem_map, List.getElem_range]
  exact h i h2

/-- The hierarchical-copy reduction of a single device row returns the row
itself (identity reduction). -/
theorem hierarchical_copy_single {β : Type} [Inhabited β]
    (row : List (Tensor × β)) :
    aggregate_gradients_using_hierarchical_copy [row] = [row] := by
  simp only [aggregate_gradients_using_hierarchical_copy, List.map_cons,
    List.map_nil]
  congr 1
  apply range_map_eq
  intro j hj
  have hget : row.get? j = some (row.get ⟨j, hj⟩) := List.get?_eq_get hj
  have hgete : row[j]? = some (row.get ⟨j, hj⟩) := by
    simpa [← List.get?_eq_getElem?] using hget
  simp only [colGrads, List.filterMap_cons, List.filterMap_nil, hget,
    Option.map_some']
  simp only [sumTensors, List.foldl_nil, List.getD_eq_getElem?_getD, hgete,
    Option.getD_some]

/-- With a single replica the summed packs equal the original packs, and
re-splitting/reshaping restores the original row: the repack path is the
identity when the reduction is. -/
theorem repack_roundtrip_single (K : Nat)
    (row : List (Tensor × Nat)) :
    localReplicated_preprocess_repack K [row] = [row] := by
  simp only [localReplicated_preprocess_repack, List.map_cons, List.map_nil]
  rw [hierarchical_copy_single]
  simp only [List.zip_cons_cons, List.zip_nil_right, List.map_cons,
    List.map_nil, List.map_map]
  congr 1
  have hpackdata :
      (splitBySizes (repack_split_sizes K
          ((row.map (fun gv => gv.1.data)).join).length)
          ((row.map (fun gv => gv.1.data)).join)).map
        ((fun gv => gv.1.data) ∘
          (fun p => ((⟨[p.length], p⟩ : Tensor), (none : Option Nat)))) =
      splitBySizes (repack_split_sizes K
          ((row.map (fun gv => gv.1.data)).join).length)
          ((row.map (fun gv => gv.1.data)).join) := by
    exact List.map_id'' (fun x => rfl) _
  rw [hpackdata, splitBySizes_join, repack_split_sizes_sum, List.take_length]
  have h2 : (row.map (fun gv => gv.1.data)).map List.length =
      row.map (fun gv => gv.1.data.length) := by
    simp [List.map_map]
  rw [← h2, splitBySizes_of_lengths, List.zip_map', List.map_map]
  have h3 : ∀ (l : List (Tensor × Nat)),
      ((l.map Prod.fst).zip l).map (fun ge => (ge.1, ge.2.2)) = l := by
    intro l
    induction l with
    | nil => rfl
    | cons a l ih => simpa using ih
  exact h3 row

/-- For any replica count, the repack path reconstitutes per-replica lists
of the original length whose entry at every position carries the original
tensor's shape and the original variable. -/
theorem repack_shapes_pairing (K : Nat) (dg : List (List (Tensor × Nat)))
    (i j : Nat) (orig : List (Tensor × Nat)) (horig : dg.get? i = some orig)
    (e : Tensor × Nat) (he : orig.get? j = some e) :
    ∃ rrow : List (Tensor × Nat),
      (localReplicated_preprocess_repack K dg).get? i = some rrow ∧
      rrow.length = orig.length ∧
      ∃ chunk : List Int,
        rrow.get? j = some ((⟨e.1.shape, chunk⟩ : Tensor), e.2) := by
  have hj : j < orig.length := (List.get?_eq_some.mp he).1
  simp only [localReplicated_preprocess_repack]
  set summed := aggregate_gradients_using_hierarchical_copy
    (dg.map (fun tower_grads_and_vars =>
      (splitBySizes (repack_split_sizes K
          ((tower_grads_and_vars.map (fun gv => gv.1.data)).join).length)
          ((tower_grads_and_vars.map (fun gv => gv.1.data)).join)).map
        (fun p => ((⟨[p.length], p⟩ : Tensor), (none : Option Nat)))))
    with hsummed
  have hsummedi : ∃ srow, summed.get? i = some srow := by
    have hlen : i < summed.length := by
      have h1 : i < dg.length := (List.get?_eq_some.mp horig).1
      simpa [hsummed, aggregate_gradients_using_hierarchical_copy]
        using h1
    exact ⟨_, List.get?_eq_get hlen⟩
  rcases hsummedi with ⟨srow, hsrow⟩
  have hchunks : ∃ c, (splitBySizes (orig.map (fun gv => gv.1.data.length))
      ((srow.map (fun gv => gv.1.data)).join)).get? j = some c := by
    have : j < (splitBySizes (orig.map (fun gv => gv.1.data.length))
        ((srow.map (fun gv => gv.1.data)).join)).length := by
      rw [splitBySizes_length, List.length_map]
      exact hj
    exact ⟨_, List.get?_eq_get this⟩
  rcases hchunks with ⟨c, hc⟩
  refine ⟨((((orig.map (fun gv => gv.1.shape)).zip
      (splitBySizes (orig.map (fun gv => gv.1.data.length))
        ((srow.map (fun gv => gv.1.data)).join))).map
      (fun sd => ((⟨sd.1, sd.2⟩ : Tensor)))).zip orig).map
      (fun ge => (ge.1, ge.2.2)), ?_, ?_, ⟨c, ?_⟩⟩
  · rw [List.get?_map, get?_zip_eq, hsrow, horig]
    rfl
  · simp only [List.length_map, List.length_zip, splitBySizes_length]
    omega
  · rw [List.get?_map, get?_zip_eq, he, List.get?_map, get?_zip_eq,
      List.get?_map, he, hc]
    rfl

/-- C4: in the repacking path with factor `K > 0`, a flattened buffer of
`T` elements is split into `K` contiguous chunks — the first `K - 1` of
size `T / K` and the last of size `T - (T / K) * (K - 1)`, summing to `T`
and concatenating back to the buffer; the reconstituted per-replica lists
keep the original tensors' shapes and variable pairing at every position;
and with the identity reduction (a single replica, sum) the original values
are recovered exactly. -/
theorem localReplicated_repack_correct (K T : Nat) (hK : 0 < K)
    (xs : List Int) (hxs : xs.length = T)
    (dg : List (List (Tensor × Nat))) (i j : Nat)
    (orig : List (Tensor × Nat)) (horig : dg.get? i = some orig)
    (e : Tensor × Nat) (he : orig.get? j = some e)
    (row : List (Tensor × Nat)) :
    (splitBySizes (repack_split_sizes K T) xs).length = K ∧
    (splitBySizes (repack_split_sizes K T) xs).map List.length =
      List.replicate (K - 1) (T / K) ++ [T - (T / K) * (K - 1)] ∧
    (repack_split_sizes K T).sum = T ∧
    (splitBySizes (repack_split_sizes K T) xs).join = xs ∧
    (∃ rrow : List (Tensor × Nat),
      (localReplicated_preprocess_repack K dg).get? i = some rrow ∧
      rrow.length = orig.length ∧
      ∃ chunk : List Int,
        rrow.get? j = some ((⟨e.1.shape, chunk⟩ : Tensor), e.2)) ∧
    localReplicated_preprocess_repack K [row] = [row] := by
  have hsum : (repack_split_sizes K T).sum = T := repack_split_sizes_sum K T
  have hlenK : (repack_split_sizes K T).length = K := by
    simp only [repack_split_sizes, List.length_append, List.length_replicate,
      List.length_cons, List.length_nil]
    omega
  refine ⟨?_, ?_, hsum, ?_, ?_, repack_roundtrip_single K row⟩
  · rw [splitBySizes_length, hlenK]
  · have hchunks : ∀ (ns : List Nat) (l : List Int), ns.sum ≤ l.length →
        (splitBySizes ns l).map List.length = ns := by
      intro ns
      induction ns with
      | nil => intro l h; rfl
      | cons n ns ih =>
        intro l h
        simp only [List.sum_cons] at h
        simp only [splitBySizes, List.map_cons, List.cons.injEq]
        constructor
        · rw [List.length_take]
          omega
        · apply ih
          rw [List.length_drop]
          omega
    rw [hchunks _ _ (by rw [hsum, hxs])]
    rfl
  · rw [splitBySizes_join, hsum, ← hxs, List.take_length]
  · exact repack_shapes_pairing K dg i j orig horig e he

/-- Witness for C4: `K = 2` over a 5-element buffer and a 1-replica,
2-parameter matrix. -/
theorem localReplicated_repack_correct_witness :
    (0 < 2 ∧ ([1, 2, 3, 4, 5] : List Int).length = 5) ∧
    ((splitBySizes (repack_split_sizes 2 5) [1, 2, 3, 4, 5]).length = 2 ∧
    (splitBySizes (repack_split_sizes 2 5) [1, 2, 3, 4, 5]).map List.length =
      List.replicate (2 - 1) (5 / 2) ++ [5 - 5 / 2 * (2 - 1)] ∧
    (repack_split_sizes 2 5).sum = 5 ∧
    (splitBySizes (repack_split_sizes 2 5) [1, 2, 3, 4, 5]).join =
      [1, 2, 3, 4, 5] ∧
    (∃ rrow : List (Tensor × Nat),
      (localReplicated_preprocess_repack 2
        [[((⟨[2], [1, 2]⟩ : Tensor), 7),
          ((⟨[3], [3, 4, 5]⟩ : Tensor), 8)]]).get? 0 = some rrow ∧
      rrow.length = ([((⟨[2], [1, 2]⟩ : Tensor), 7),
          ((⟨[3], [3, 4, 5]⟩ : Tensor), 8)]).length ∧
      ∃ chunk : List Int,
        rrow.get? 1 = some ((⟨((⟨[3], [3, 4, 5]⟩ : Tensor), 8).1.shape,
          chunk⟩ : Tensor), ((⟨[3], [3, 4, 5]⟩ : Tensor), 8).2)) ∧
    localReplicated_preprocess_repack 2
      [[((⟨[2], [1, 2]⟩ : Tensor), 7), ((⟨[3], [3, 4, 5]⟩ : Tensor), 8)]] =
      [[((⟨[2], [1, 2]⟩ : Tensor), 7), ((⟨[3], [3, 4, 5]⟩ : Tensor), 8)]]) :=
  ⟨⟨by decide, by decide⟩, localReplicated_repack_correct 2 5 (by decide)
    [1, 2, 3, 4, 5] (by decide)
    [[((⟨[2], [1, 2]⟩ : Tensor), 7), ((⟨[3], [3, 4, 5]⟩ : Tensor), 8)]] 0 1
    [((⟨[2], [1, 2]⟩ : Tensor), 7), ((⟨[3], [3, 4, 5]⟩ : Tensor), 8)]
    (by decide) ((⟨[3], [3, 4, 5]⟩ : Tensor), 8) (by decide)
    [((⟨[2], [1, 2]⟩ : Tensor), 7), ((⟨[3], [3, 4, 5]⟩ : Tensor), 8)]⟩

/-- C5: every op emitted by the Distributed-replicated apply step is a
broadcast assignment of some parameter `i` to some device, gated by the
cross-worker barrier keyed `'replicate_variable_i'`; the assignment
depends (transitively) on that barrier, the barrier depends on the
apply-gradient op for `i`, and the assignment depends on no other
parameter's apply-gradient op — so per-parameter barriers are
independent. -/
theorem distributedReplicated_barrier_ordering (num_params num_devices : Nat)
    (op : GraphOp)
    (hop : op ∈ distributedReplicated_apply_gradients_ops num_params
      num_devices) :
    ∃ d i, d < num_devices ∧ i < num_params ∧
      op = GraphOp.assignOp d i
        (GraphOp.barrier (replicate_variable_barrier_key i)
          (GraphOp.applyGrad i))
        (GraphOp.readValue i
          (GraphOp.barrier (replicate_variable_barrier_key i)
            (GraphOp.applyGrad i))) ∧
      op.DependsOn (GraphOp.barrier (replicate_variable_barrier_key i)
        (GraphOp.applyGrad i)) ∧
      op.DependsOn (GraphOp.applyGrad i) ∧
      (GraphOp.barrier (replicate_variable_barrier_key i)
        (GraphOp.applyGrad i)).DependsOn (GraphOp.applyGrad i) ∧
      ∀ j, j ≠ i → ¬ op.DependsOn (GraphOp.applyGrad j) := by
  simp only [distributedReplicated_apply_gradients_ops, List.mem_bind,
    List.mem_map, List.mem_range] at hop
  rcases hop with ⟨i, hi, d, hd, rfl⟩
  refine ⟨d, i, hd, hi, rfl, ?_, ?_, ?_, ?_⟩
  · simp [GraphOp.DependsOn, GraphOp.strictDeps]
  · simp [GraphOp.DependsOn, GraphOp.strictDeps]
  · simp [GraphOp.DependsOn, GraphOp.strictDeps]
  · intro j hj
    simp [GraphOp.DependsOn, GraphOp.strictDeps, hj]

/-- Witness for C5: 2 parameters, 2 devices, the assignment of parameter 1
to device 0. -/
theorem distributedReplicated_barrier_ordering_witness :
    (GraphOp.assignOp 0 1
      (GraphOp.barrier (replicate_variable_barrier_key 1)
        (GraphOp.applyGrad 1))
      (GraphOp.readValue 1
        (GraphOp.barrier (replicate_variable_barrier_key 1)
          (GraphOp.applyGrad 1))) ∈
      distributedReplicated_apply_gradients_ops 2 2) ∧
    (∃ d i, d < 2 ∧ i < 2 ∧
      GraphOp.assignOp 0 1
        (GraphOp.barrier (replicate_variable_barrier_key 1)
          (GraphOp.applyGrad 1))
        (GraphOp.readValue 1
          (GraphOp.barrier (replicate_variable_barrier_key 1)
            (GraphOp.applyGrad 1))) = GraphOp.assignOp d i
          (GraphOp.barrier (replicate_variable_barrier_key i)
            (GraphOp.applyGrad i))
          (GraphOp.readValue i
            (GraphOp.barrier (replicate_variable_barrier_key i)
              (GraphOp.applyGrad i))) ∧
      (GraphOp.assignOp 0 1
        (GraphOp.barrier (replicate_variable_barrier_key 1)
          (GraphOp.applyGrad 1))
        (GraphOp.readValue 1
          (GraphOp.barrier (replicate_variable_barrier_key 1)
            (GraphOp.applyGrad 1)))).DependsOn
        (GraphOp.barrier (replicate_variable_barrier_key i)
          (GraphOp.applyGrad i)) ∧
      (GraphOp.assignOp 0 1
        (GraphOp.barrier (replicate_variable_barrier_key 1)
          (GraphOp.applyGrad 1))
        (GraphOp.readValue 1
          (GraphOp.barrier (replicate_variable_barrier_key 1)
            (GraphOp.applyGrad 1)))).DependsOn (GraphOp.applyGrad i) ∧
      (GraphOp.barrier (replicate_variable_barrier_key i)
        (GraphOp.applyGrad i)).DependsOn (GraphOp.applyGrad i) ∧
      ∀ j, j ≠ i →
        ¬ (GraphOp.assignOp 0 1
          (GraphOp.barrier (replicate_variable_barrier_key 1)
            (GraphOp.applyGrad 1))
          (GraphOp.readValue 1
            (GraphOp.barrier (replicate_variable_barrier_key 1)
              (GraphOp.applyGrad 1)))).DependsOn (GraphOp.applyGrad j)) :=
  ⟨by decide, distributedReplicated_barrier_ordering 2 2 _ (by decide)⟩

/-- C6: in Independent mode, `get_gradients_to_apply` returns the indexed
replica's own list unmodified (never raising on any gradient content); the
NaN/Inf flag is recomputed only when loss scaling is enabled and
`device_num == 0`, and is otherwise left untouched; the computed flag is
true iff some gradient tensor of replica 0's list contains a non-finite
element (an OR over per-gradient non-finiteness). -/
theorem independent_nan_check (enable : Bool) (prev : Option Bool)
    (device_num : Nat) (dg : List (List (List FpVal × Nat)))
    (row : List (List FpVal × Nat)) (hrow : dg.get? device_num = some row) :
    (independent_get_gradients_to_apply enable prev device_num dg).1 =
      some row ∧
    (independent_get_gradients_to_apply enable prev device_num dg).2 =
      (if enable && device_num == 0 then
        some (!(row.map (fun gv => gv.1.all FpVal.is_finite)).all id)
       else prev) ∧
    ((!(row.map (fun gv => gv.1.all FpVal.is_finite)).all id) = true ↔
      ∃ gv ∈ row, ∃ x ∈ gv.1, FpVal.is_finite x = false) := by
  refine ⟨?_, ?_, ?_⟩
  · simp only [independent_get_gradients_to_apply, hrow]
    split <;> rfl
  · simp only [independent_get_gradients_to_apply, hrow]
    split_ifs with h <;> simp [h]
  · simp [Bool.not_eq_true', List.all_eq_false]

/-- Witness for C6: replica 0 holds one finite and one non-finite gradient;
the flag computes to `true`. -/
theorem independent_nan_check_witness :
    ([[([FpVal.fin 1], 0), ([FpVal.fin 2, FpVal.notFin], 1)]].get? 0 =
      some [([FpVal.fin 1], 0), ([FpVal.fin 2, FpVal.notFin], 1)]) ∧
    ((independent_get_gradients_to_apply true none 0
        [[([FpVal.fin 1], 0), ([FpVal.fin 2, FpVal.notFin], 1)]]).1 =
      some [([FpVal.fin 1], 0), ([FpVal.fin 2, FpVal.notFin], 1)] ∧
    (independent_get_gradients_to_apply true none 0
        [[([FpVal.fin 1], 0), ([FpVal.fin 2, FpVal.notFin], 1)]]).2 =
      (if true && (0 : Nat) == 0 then
        some (!(([([FpVal.fin 1], 0),
          ([FpVal.fin 2, FpVal.notFin], 1)]).map
            (fun gv => gv.1.all FpVal.is_finite)).all id)
       else none) ∧
    ((!(([([FpVal.fin 1], 0), ([FpVal.fin 2, FpVal.notFin], 1)]).map
        (fun gv => gv.1.all FpVal.is_finite)).all id) = true ↔
      ∃ gv ∈ [([FpVal.fin 1], 0), ([FpVal.fin 2, FpVal.notFin], 1)],
        ∃ x ∈ gv.1, FpVal.is_finite x = false)) :=
  ⟨by decide, independent_nan_check true none 0 _ _ (by decide)⟩

/-- C7: constructing a strategy with an invalid all-reduce spec raises
synchronously at construction time: Distributed all-reduce rejects an empty
`all_reduce_spec`, and Local-replicated rejects a parse with more than one
range (a hybrid spec); both constructors return the error directly, with no
retry path. -/
theorem init_config_errors
    (parse_all_reduce_spec : String → List AllReduceSpecTuple)
    (s : String) (hne : s ≠ "")
    (hhybrid : 1 < (parse_all_reduce_spec s).length) :
    VariableMgrDistributedAllReduce_init parse_all_reduce_spec "" =
      Except.error
        "distributed_all_reduce requires a non-empty all_reduce_spec" ∧
    VariableMgrLocalReplicated_init parse_all_reduce_spec s =
      Except.error
        "replicated mode does not support hybrid all-reduce strategies" := by
  constructor
  · rfl
  · simp only [VariableMgrLocalReplicated_init, if_neg hne]
    rcases h : parse_all_reduce_spec s with _ | ⟨a, t⟩
    · rfl
    · cases t with
      | nil =>
        rw [h] at hhybrid
        simp at hhybrid
      | cons b t2 => rfl

/-- Witness for C7: a parse function returning two ranges for the non-empty
spec string. -/
theorem init_config_errors_witness :
    (("ring:3" : String) ≠ "" ∧
      1 < ((fun _ => [(⟨"xring", 1, (1 : Int)⟩ : AllReduceSpecTuple),
        ⟨"xring", 1, (-1 : Int)⟩]) ("ring:3" : String)).length) ∧
    (VariableMgrDistributedAllReduce_init
        (fun _ => [(⟨"xring", 1, (1 : Int)⟩ : AllReduceSpecTuple),
          ⟨"xring", 1, (-1 : Int)⟩]) "" =
      Except.error
        "distributed_all_reduce requires a non-empty all_reduce_spec" ∧
    VariableMgrLocalReplicated_init
        (fun _ => [(⟨"xring", 1, (1 : Int)⟩ : AllReduceSpecTuple),
          ⟨"xring", 1, (-1 : Int)⟩]) "ring:3" =
      Except.error
        "replicated mode does not support hybrid all-reduce strategies") :=
  ⟨⟨by decide, by decide⟩, init_config_errors _ "ring:3" (by decide)
    (by decide)⟩

/-- C8 counterexample: in Distributed-replicated mode the preprocessing
step exposes exactly one apply device, yet `get_gradients_to_apply` with
the out-of-range index 3 raises nothing — it returns the very same
well-formed result as index 0, because the implementation never reads
`device_num`. -/
theorem gradients_for_out_of_range_counterexample :
    (distributedReplicated_preprocess_device_grads
      ⟨["d0", "d1"], ["d0", "d1"], "cpu"⟩
      [[((⟨[1], [2]⟩ : Tensor), "v0/w:0")]]).1.length = 1 ∧
    distributedReplicated_get_gradients_to_apply 3
        [[((⟨[1], [2]⟩ : Tensor), "v0/w:0")]] =
      distributedReplicated_get_gradients_to_apply 0
        [[((⟨[1], [2]⟩ : Tensor), "v0/w:0")]] ∧
    distributedReplicated_get_gradients_to_apply 3
        [[((⟨[1], [2]⟩ : Tensor), "v0/w:0")]] =
      [((⟨[1], [2]⟩ : Tensor), "ps_var/v0/w")] :=
  ⟨rfl, rfl, by decide⟩

/-- C8 amended: every mode except Distributed-replicated raises a fatal
error on an out-of-range device index — Independent and Local-replicated
via `IndexError` on indexing, the fetch-from-PS modes via the
`device_num == 0` assertion, Distributed all-reduce via its explicit
`ValueError` check; Distributed-replicated never reads the index and
returns the same result for every index instead of raising. -/
theorem gradients_for_out_of_range_amended (device_num : Nat)
    (enable : Bool) (prev : Option Bool)
    (dg_fp : List (List (List FpVal × Nat)))
    (state : List (List (Tensor × Nat)))
    (state_named : List (List (Tensor × String))) :
    ((independent_get_gradients_to_apply enable prev device_num dg_fp).1 =
        none ↔ dg_fp.length ≤ device_num) ∧
    (localFetchFromPS_get_gradients_to_apply device_num state = none ↔
      device_num ≠ 0) ∧
    (distributedFetchFromPS_get_gradients_to_apply device_num state = none ↔
      device_num ≠ 0) ∧
    (localReplicated_get_gradients_to_apply device_num state = none ↔
      state.length ≤ device_num) ∧
    ((∃ msg, distributedAllReduce_get_gradients_to_apply device_num state =
        Except.error msg) ↔ state.length ≤ device_num) ∧
    distributedReplicated_get_gradients_to_apply device_num state_named =
      distributedReplicated_get_gradients_to_apply 0 state_named := by
  refine ⟨?_, ?_, ?_, ?_, ?_, rfl⟩
  · simp only [independent_get_gradients_to_apply]
    rcases h : dg_fp.get? device_num with _ | row
    · simp [List.get?_eq_none.mp h]
    · have hlt : device_num < dg_fp.length := (List.get?_eq_some.mp h).1
      constructor
      · intro hnone
        split_ifs at hnone
      · intro hle
        omega
  · simp only [localFetchFromPS_get_gradients_to_apply]
    split_ifs with h <;> simp [h]
  · simp only [distributedFetchFromPS_get_gradients_to_apply]
    split_ifs with h <;> simp [h]
  · simp only [localReplicated_get_gradients_to_apply]
    exact List.get?_eq_none
  · simp only [distributedAllReduce_get_gradients_to_apply]
    split_ifs with h <;> simp [h]

/-- C9 counterexample: `global_step:0` does not belong to replica 0's `v0/`
scope, yet Local-replicated `savable_variables` includes it (the
implementation also keeps every variable whose name does not start with
`v`). -/
theorem localReplicated_savable_counterexample :
    localReplicated_savable_variables ["v0/w:0", "v1/w:0", "global_step:0"] =
      ["v0/w:0", "global_step:0"] ∧
    "global_step:0" ∈ localReplicated_savable_variables
      ["v0/w:0", "v1/w:0", "global_step:0"] ∧
    belongs_to_replica0_scope "global_step:0" = false := by
  refine ⟨by decide, by decide, by decide⟩

/-- C9 amended: Local-replicated `savable_variables` keeps a global
variable iff its first name component is `v0` or its name does not start
with `v` at all; consequently no other replica's copy (a name starting with
`v` whose first component differs from `v0`, e.g. `v1/...`) is ever
saved. -/
theorem localReplicated_savable_amended (global_variables : List String)
    (v : String) :
    localReplicated_savable_variables global_variables =
      global_variables.filter
        (fun w => name_first_component w == "v0" || !strStartsWith w "v") ∧
    (v ∈ localReplicated_savable_variables global_variables ↔
      v ∈ global_variables ∧
        (name_first_component v == "v0" || !strStartsWith v "v") = true) := by
  refine ⟨rfl, ?_⟩
  simp [localReplicated_savable_variables, List.mem_filter]

/-- The post-init loops of the two replicated strategies coincide. -/
theorem post_init_go_eq (gvs : List String) (l : List String) :
    localReplicated_post_init_go gvs l =
      distributedAllReduce_post_init_go gvs l := by
  induction l with
  | nil => rfl
  | cons v vs ih =>
    simp only [localReplicated_post_init_go,
      distributedAllReduce_post_init_go, ih]

/-- When every replicated variable's `v0` counterpart exists, the post-init
loop collects exactly one assignment from the `v0` copy per non-`v0`
replicated variable, skipping the rest. -/
theorem post_init_go_filterMap (gvs : List String) (l : List String)
    (hlook : ∀ w ∈ l, (name_first_component w == "v0" ||
        !strStartsWith w "v") = true ∨
      gvs.contains (v0_copy_name w) = true) :
    localReplicated_post_init_go gvs l = some (l.filterMap (fun w =>
      if (name_first_component w == "v0" || !strStartsWith w "v") = true
      then none else some (w, v0_copy_name w))) := by
  induction l with
  | nil => rfl
  | cons v vs ih =>
    have hv := hlook v (List.mem_cons_self v vs)
    have hrest : ∀ w ∈ vs, (name_first_component w == "v0" ||
        !strStartsWith w "v") = true ∨
        gvs.contains (v0_copy_name w) = true :=
      fun w hw => hlook w (List.mem_cons_of_mem v hw)
    by_cases hskip : (name_first_component v == "v0" ||
        !strStartsWith v "v") = true
    · simp only [localReplicated_post_init_go, List.filterMap_cons, hskip,
        if_true, ih hrest]
    · have hcont : gvs.contains (v0_copy_name v) = true :=
        hv.resolve_left hskip
      simp only [localReplicated_post_init_go, List.filterMap_cons,
        hskip, if_false, hcont, if_true, ih hrest, Option.map_some',
        Bool.not_eq_true]
      rw [if_neg (by simp [hskip])]
      simp [ih hrest]

/-- C10: `VariableMgrLocalReplicated` and `VariableMgrDistributedAllReduce`
are behaviorally equal on both `get_post_init_ops` and
`savable_variables`; the post-init ops are one assignment from the
same-named `v0`-scoped variable for each variable starting with `v` outside
scope `v0` (others skipped), and the savable set is exactly the `v0`-scoped
variables plus those whose names do not start with `v`. -/
theorem localReplicated_distributedAllReduce_equiv (gvs : List String)
    (v : String)
    (hlook : ∀ w ∈ gvs, (name_first_component w == "v0" ||
        !strStartsWith w "v") = true ∨
      gvs.contains (v0_copy_name w) = true) :
    localReplicated_get_post_init_ops gvs =
      distributedAllReduce_get_post_init_ops gvs ∧
    localReplicated_savable_variables gvs =
      distributedAllReduce_savable_variables gvs ∧
    localReplicated_get_post_init_ops gvs = some (gvs.filterMap (fun w =>
      if (name_first_component w == "v0" || !strStartsWith w "v") = true
      then none else some (w, v0_copy_name w))) ∧
    (v ∈ localReplicated_savable_variables gvs ↔ v ∈ gvs ∧
      (name_first_component v == "v0" || !strStartsWith v "v") = true) := by
  refine ⟨post_init_go_eq gvs gvs, rfl,
    post_init_go_filterMap gvs gvs hlook, ?_⟩
  simp [localReplicated_savable_variables, List.mem_filter]

/-- Witness for C10 on a concrete variable set with one replicated pair and
one non-`v` global. -/
theorem localReplicated_distributedAllReduce_equiv_witness :
    (∀ w ∈ ["v0/w:0", "v1/w:0", "global_step:0"],
      (name_first_component w == "v0" || !strStartsWith w "v") = true ∨
      (["v0/w:0", "v1/w:0", "global_step:0"]).contains (v0_copy_name w) =
        true) ∧
    (localReplicated_get_post_init_ops ["v0/w:0", "v1/w:0", "global_step:0"]
        = distributedAllReduce_get_post_init_ops
          ["v0/w:0", "v1/w:0", "global_step:0"] ∧
    localReplicated_savable_variables ["v0/w:0", "v1/w:0", "global_step:0"] =
      distributedAllReduce_savable_variables
        ["v0/w:0", "v1/w:0", "global_step:0"] ∧
    localReplicated_get_post_init_ops ["v0/w:0", "v1/w:0", "global_step:0"] =
      some ((["v0/w:0", "v1/w:0", "global_step:0"]).filterMap (fun w =>
        if (name_first_component w == "v0" || !strStartsWith w "v") = true
        then none else some (w, v0_copy_name w))) ∧
    ("v1/w:0" ∈ localReplicated_savable_variables
        ["v0/w:0", "v1/w:0", "global_step:0"] ↔
      "v1/w:0" ∈ ["v0/w:0", "v1/w:0", "global_step:0"] ∧
        (name_first_component "v1/w:0" == "v0" ||
          !strStartsWith "v1/w:0" "v") = true)) :=
  ⟨by decide, localReplicated_distributedAllReduce_equiv
    ["v0/w:0", "v1/w:0", "global_step:0"] "v1/w:0" (by decide)⟩
